import Mathlib

/-!
Verification of the jShow CLI core: registry (install/use), lifecycle
orchestration (setupAction), option validation, plugin resolution and
discovery loading, shallowly embedded from src/command.ts, src/program.ts,
src/plugin.ts and src/cli.ts.
-/

namespace JShow

/-- A JavaScript runtime value as it appears in a parsed-options record
(Record of string to unknown). Only the shapes the CLI inspects are kept. -/
inductive JSValue where
  | vNull
  | vUndefined
  | vBool (b : Bool)
  | vNum (n : Int)
  | vStr (s : String)
deriving Repr, DecidableEq

/-- Parsed options object: Record of string to unknown, modelled as an
association list. Property access on a missing key yields undefined. -/
abbrev Opts := List (String × JSValue)

/-- JavaScript property access options[key]: undefined when absent. -/
def lookupOpt (options : Opts) (key : String) : JSValue :=
  match options.find? (fun kv => kv.fst == key) with
  | some kv => kv.snd
  | none => JSValue.vUndefined

/-- The JavaScript loose test v == null, true exactly for null and undefined. -/
def isNullish : JSValue → Bool
  | JSValue.vNull => true
  | JSValue.vUndefined => true
  | _ => false

/-- JavaScript truthiness of a value, as used by conditions like options.mode. -/
def jsTruthy : JSValue → Bool
  | JSValue.vNull => false
  | JSValue.vUndefined => false
  | JSValue.vBool b => b
  | JSValue.vNum n => n != 0
  | JSValue.vStr s => s != ""

/-- CommandOption from src/command.ts: one option spec of a command. -/
structure CommandOption where
  flag : String
  abbreviation : Option String := none
  description : Option String := none
  defaultValue : Option JSValue := none
  required : Bool := false
deriving Repr, DecidableEq

/-- CommandArgs from src/command.ts: the metadata bundle a command declares. -/
structure CommandArgs where
  name : String
  aliases : List String := []
  plugins : Option (List String) := none
  group : Option String := none
  description : Option String := none
  examples : List String := []
  options : List CommandOption
  validate : Option (Opts → Option String) := none

/-- An installed plugin, merging the registry entry fields of PluginType in
src/program.ts (name, priority) with the instance behaviour of a BasePlugin
subclass from src/plugin.ts: whether the optional beforeExecute and
afterExecute hooks are defined. Default priority is 100. -/
structure BasePlugin where
  name : String
  priority : Int := 100
  hasBefore : Bool := false
  hasAfter : Bool := false
deriving Repr, DecidableEq

/-- A thrown JavaScript Error, identified by its message. -/
structure JsError where
  message : String
deriving Repr, DecidableEq

/-- An instance of a BaseCommand subclass from src/command.ts: its declared
args, whether the optional beforeExecute and afterExecute hooks are defined,
the behaviour of its execute body (none means it returns, some e means it
throws e), and the boolean its onError hook returns for a given error. -/
structure BaseCommand where
  args : CommandArgs
  hasBefore : Bool := false
  hasAfter : Bool := false
  executeThrows : Option JsError := none
  onErrorHandled : JsError → Bool := fun _ => false

/-- JavaScript String.prototype.split on a whitespace run, character by
character. The first argument is true while inside a separator run, so that
a run of whitespace counts as a single separator; a leading separator yields
a leading empty token and a trailing separator a trailing empty token,
exactly as split with a regular expression of one-or-more whitespace does. -/
def wsSplitGo : Bool → List Char → List (List Char)
  | _, [] => [[]]
  | inSep, c :: rest =>
    if c.isWhitespace then
      if inSep then wsSplitGo true rest
      else [] :: wsSplitGo true rest
    else
      match wsSplitGo false rest with
      | [] => [[c]]
      | t :: ts => (c :: t) :: ts

/-- Split a character list on whitespace runs. -/
def wsSplit (cs : List Char) : List (List Char) := wsSplitGo false cs

/-- JavaScript String.prototype.trim on a character list: drop whitespace at
both ends. -/
def trimChars (cs : List Char) : List Char :=
  ((cs.dropWhile Char.isWhitespace).reverse.dropWhile Char.isWhitespace).reverse

/-- BaseCommand.extractOptionName: remove the leading dashes of the flag
string (the regex matches one dash optionally followed by a second one),
split on whitespace, keep the first piece and trim it. -/
def extractOptionName (flag : String) : String :=
  let stripped :=
    match flag.toList with
    | '-' :: '-' :: rest => rest
    | '-' :: rest => rest
    | cs => cs
  String.mk (trimChars ((wsSplit stripped).headD []))

/-- The required-option loop inside BaseCommand.validateOptions: scan the
option specs in order, and return the Chinese required-option message for the
first required spec whose looked-up value is null or undefined. -/
def firstRequiredError (optionDefs : List CommandOption) (options : Opts) : Option String :=
  match optionDefs with
  | [] => none
  | o :: rest =>
    if o.required && isNullish (lookupOpt options (extractOptionName o.flag)) then
      some ("选项 " ++ o.flag ++ " 是必填的")
    else
      firstRequiredError rest options

/-- BaseCommand.validateOptions: first the required-option check, then the
custom validate function when one is declared, else null. -/
def validateOptions (cmd : BaseCommand) (options : Opts) : Option String :=
  match firstRequiredError cmd.args.options options with
  | some msg => some msg
  | none =>
    match cmd.args.validate with
    | some f => f options
    | none => none

/-- BaseCommand.getPlugins: the installed plugin list (as passed to the
constructor) filtered to the names declared in args.plugins, defaulting to
the empty list of names. -/
def getPlugins (cmd : BaseCommand) (installed : List BasePlugin) : List BasePlugin :=
  let names := cmd.args.plugins.getD []
  installed.filter (fun p => names.contains p.name)

/-- One observable step of the per-invocation hook sequence built by
BaseCommand.setupAction. -/
inductive Event where
  | pluginBefore (name : String)
  | cmdBefore
  | execute
  | cmdAfter
  | pluginAfter (name : String)
  | onErrorCall (e : JsError)
deriving Repr, DecidableEq

/-- How the wrapped action returns to commander: normally, or by re-raising
an error. -/
inductive Outcome where
  | normal
  | raised (e : JsError)
deriving Repr, DecidableEq

/-- The plugin beforeExecute calls of plugins.forEach, one event per plugin
that defines the optional hook, in list order. -/
def beforeHookEvents (ps : List BasePlugin) : List Event :=
  ps.filterMap (fun p => if p.hasBefore then some (Event.pluginBefore p.name) else none)

/-- The plugin afterExecute calls of plugins.forEach, one event per plugin
that defines the optional hook, in list order. -/
def afterHookEvents (ps : List BasePlugin) : List Event :=
  ps.filterMap (fun p => if p.hasAfter then some (Event.pluginAfter p.name) else none)

/-- JavaScript truthiness of the string-or-null result of validateOptions,
as the test if (validationError) applies it: null and the empty string are
falsy, every other string truthy. -/
def strTruthy : Option String → Bool
  | none => false
  | some s => s != ""

/-- The try block of the action callback in BaseCommand.setupAction: plugin
before hooks, own before hook, option validation (a truthy validation
message — the test is JS truthiness, so the empty string does not count —
is wrapped in a new Error and thrown), execute, own after hook, plugin
after hooks. Returns the event trace and the error the block throws, if
any. In the truthy branch the result is some, so getD never supplies its
default. -/
def tryBody (cmd : BaseCommand) (installed : List BasePlugin) (options : Opts) :
    List Event × Option JsError :=
  let plugins := getPlugins cmd installed
  let beforeTrace :=
    beforeHookEvents plugins ++ (if cmd.hasBefore then [Event.cmdBefore] else [])
  let validationError := validateOptions cmd options
  if strTruthy validationError then
    (beforeTrace, some { message := validationError.getD "" })
  else
    match cmd.executeThrows with
    | some e => (beforeTrace ++ [Event.execute], some e)
    | none =>
      (beforeTrace ++ [Event.execute]
        ++ (if cmd.hasAfter then [Event.cmdAfter] else [])
        ++ afterHookEvents plugins, none)

/-- The whole action callback of BaseCommand.setupAction: the try block, and
on error the onError hook; a truthy result absorbs the error, a falsy result
re-raises the very same error. -/
def runAction (cmd : BaseCommand) (installed : List BasePlugin) (options : Opts) :
    List Event × Outcome :=
  match tryBody cmd installed options with
  | (trace, none) => (trace, Outcome.normal)
  | (trace, some e) =>
    if cmd.onErrorHandled e then
      (trace ++ [Event.onErrorCall e], Outcome.normal)
    else
      (trace ++ [Event.onErrorCall e], Outcome.raised e)

/-- The process-wide registry state of src/program.ts: the plugin list and
the command map (a JavaScript Map, modelled as an insertion-ordered
association list from command name to a token identifying the command
class). -/
structure RegistryState where
  plugins : List BasePlugin
  commands : List (String × Nat)
deriving Repr, DecidableEq

deriving instance DecidableEq for Except

/-- The pristine registry: no plugins, no commands. -/
def initRegistry : RegistryState := { plugins := [], commands := [] }

/-- Stable insertion of an element into a priority-ordered plugin list: the
new element goes after every element whose priority is less than or equal to
its own. -/
def insertSorted (p : BasePlugin) : List BasePlugin → List BasePlugin
  | [] => [p]
  | q :: rest =>
    if q.priority ≤ p.priority then q :: insertSorted p rest
    else p :: q :: rest

/-- The JavaScript plugins.sort with comparator a.priority - b.priority:
ascending by priority. Array.prototype.sort is required to be stable, so any
stable sort produces the exact same list; embedded as a stable insertion
sort. -/
def sortByPriority (l : List BasePlugin) : List BasePlugin :=
  l.foldl (fun acc p => insertSorted p acc) []

/-- CommandProgram.install: reject a duplicate plugin name unless force is
set, otherwise push the new entry and re-sort the list by ascending
priority. -/
def install (s : RegistryState) (p : BasePlugin) (force : Bool) : Except String RegistryState :=
  if s.plugins.any (fun q => q.name == p.name) && !force then
    Except.error ("Plugin \x27" ++ p.name ++ "\x27 already exists.")
  else
    Except.ok { s with plugins := sortByPriority (s.plugins ++ [p]) }

/-- JavaScript Map.set semantics on the association-list model: replace the
value in place when the key exists, otherwise append. -/
def mapSet (m : List (String × Nat)) (key : String) (value : Nat) : List (String × Nat) :=
  if m.any (fun kv => kv.fst == key) then
    m.map (fun kv => if kv.fst == key then (key, value) else kv)
  else
    m ++ [(key, value)]

/-- CommandProgram.use: reject a duplicate command name unless force is set,
otherwise store the descriptor under its name. -/
def use (s : RegistryState) (name : String) (cmdClass : Nat) (force : Bool) :
    Except String RegistryState :=
  if s.commands.any (fun kv => kv.fst == name) && !force then
    Except.error ("Command \x27" ++ name ++ "\x27 already exists.")
  else
    Except.ok { s with commands := mapSet s.commands name cmdClass }

/-- Run a sequence of install calls; a call that throws leaves the state
unchanged (the exception is the caller's problem). -/
def runInstalls (s : RegistryState) : List (BasePlugin × Bool) → RegistryState
  | [] => s
  | (p, f) :: rest =>
    match install s p f with
    | Except.ok s2 => runInstalls s2 rest
    | Except.error _ => runInstalls s rest

/-- The plugins a sequence of install calls actually accepts, in call
order. -/
def acceptedEntries (s : RegistryState) : List (BasePlugin × Bool) → List BasePlugin
  | [] => []
  | (p, f) :: rest =>
    match install s p f with
    | Except.ok s2 => p :: acceptedEntries s2 rest
    | Except.error _ => acceptedEntries s rest

/-- The ordering the registry keeps its plugin list in: ascending priority. -/
abbrev priLe (a b : BasePlugin) : Prop := a.priority ≤ b.priority

lemma mem_insertSorted {p q : BasePlugin} {l : List BasePlugin} :
    q ∈ insertSorted p l ↔ q = p ∨ q ∈ l := by
  induction l with
  | nil => simp [insertSorted]
  | cons y ys ih =>
    rw [insertSorted]
    by_cases h : y.priority ≤ p.priority
    · rw [if_pos h]
      simp only [List.mem_cons, ih]
      tauto
    · rw [if_neg h]
      simp only [List.mem_cons]

lemma pairwise_insertSorted {p : BasePlugin} {l : List BasePlugin}
    (h : List.Pairwise priLe l) : List.Pairwise priLe (insertSorted p l) := by
  induction l with
  | nil => simp [insertSorted]
  | cons y ys ih =>
    rcases List.pairwise_cons.mp h with ⟨hy, hys⟩
    by_cases hle : y.priority ≤ p.priority
    · simp only [insertSorted, if_pos hle]
      refine List.pairwise_cons.mpr ⟨?_, ih hys⟩
      intro z hz
      rcases mem_insertSorted.mp hz with rfl | hz2
      · exact hle
      · exact hy z hz2
    · simp only [insertSorted, if_neg hle]
      refine List.pairwise_cons.mpr ⟨?_, h⟩
      intro z hz
      rcases List.mem_cons.mp hz with rfl | hz2
      · exact le_of_not_le hle
      · exact le_trans (le_of_not_le hle) (hy z hz2)

lemma insertSorted_of_forall_le {p : BasePlugin} {l : List BasePlugin}
    (h : ∀ q ∈ l, q.priority ≤ p.priority) : insertSorted p l = l ++ [p] := by
  induction l with
  | nil => rfl
  | cons y ys ih =>
    have hy : y.priority ≤ p.priority := h y (List.mem_cons_self y ys)
    simp [insertSorted, if_pos hy, ih (fun q hq => h q (List.mem_cons_of_mem y hq))]

lemma sortByPriority_append_one (l : List BasePlugin) (p : BasePlugin) :
    sortByPriority (l ++ [p]) = insertSorted p (sortByPriority l) := by
  simp [sortByPriority, List.foldl_append]

lemma sortByPriority_of_pairwise {l : List BasePlugin} (h : List.Pairwise priLe l) :
    sortByPriority l = l := by
  induction l using List.reverseRecOn with
  | nil => rfl
  | append_singleton ys y ih =>
    rcases List.pairwise_append.mp h with ⟨h1, _, h3⟩
    rw [sortByPriority_append_one, ih h1]
    exact insertSorted_of_forall_le
      (fun q hq => h3 q hq y (List.mem_singleton_self y))

lemma filter_insertSorted {p : BasePlugin} {l : List BasePlugin} (pr : Int)
    (h : List.Pairwise priLe l) :
    (insertSorted p l).filter (fun q => q.priority == pr)
      = l.filter (fun q => q.priority == pr)
        ++ (if p.priority == pr then [p] else []) := by
  induction l with
  | nil =>
    by_cases hp : p.priority == pr <;> simp [insertSorted, hp]
  | cons y ys ih =>
    rcases List.pairwise_cons.mp h with ⟨hy, hys⟩
    by_cases hle : y.priority ≤ p.priority
    · simp only [insertSorted, if_pos hle, List.filter_cons]
      rw [ih hys]
      by_cases hyp : y.priority == pr <;> simp [hyp]
    · rw [insertSorted, if_neg hle]
      have hplt : p.priority < y.priority := lt_of_not_le hle
      by_cases hp : p.priority == pr
      · have hpr : p.priority = pr := by simpa using hp
        have hnil : (y :: ys).filter (fun q => q.priority == pr) = [] := by
          refine List.filter_eq_nil_iff.mpr ?_
          intro q hq
          rcases List.mem_cons.mp hq with rfl | hq2
          · simp only [beq_iff_eq]
            omega
          · have hyq : y.priority ≤ q.priority := hy q hq2
            simp only [beq_iff_eq]
            omega
        have hstep : List.filter (fun q => q.priority == pr) (p :: y :: ys)
            = p :: List.filter (fun q => q.priority == pr) (y :: ys) := by
          rw [List.filter_cons]
          simp [hp]
        rw [hstep, hnil]
        simp [hp]
      · rw [List.filter_cons]
        simp [hp]

lemma install_ok_plugins {s s2 : RegistryState} {p : BasePlugin} {force : Bool}
    (hs : List.Pairwise priLe s.plugins)
    (hok : install s p force = Except.ok s2) :
    s2.plugins = insertSorted p s.plugins ∧ s2.commands = s.commands := by
  unfold install at hok
  split at hok
  · exact absurd hok (by simp)
  · injection hok with h2
    subst h2
    simp [sortByPriority_append_one, sortByPriority_of_pairwise hs]

lemma runInstalls_spec (reqs : List (BasePlugin × Bool)) :
    ∀ s : RegistryState, List.Pairwise priLe s.plugins →
      List.Pairwise priLe (runInstalls s reqs).plugins ∧
      ∀ pr : Int,
        ((runInstalls s reqs).plugins.filter (fun q => q.priority == pr))
          = s.plugins.filter (fun q => q.priority == pr)
            ++ ((acceptedEntries s reqs).filter (fun q => q.priority == pr)) := by
  induction reqs with
  | nil =>
    intro s hs
    exact ⟨hs, fun pr => by simp [runInstalls, acceptedEntries]⟩
  | cons pf rest ih =>
    intro s hs
    obtain ⟨p, f⟩ := pf
    cases hinst : install s p f with
    | error msg =>
      have h1 : runInstalls s ((p, f) :: rest) = runInstalls s rest := by
        simp [runInstalls, hinst]
      have h2 : acceptedEntries s ((p, f) :: rest) = acceptedEntries s rest := by
        simp [acceptedEntries, hinst]
      rw [h1, h2]
      exact ih s hs
    | ok s2 =>
      obtain ⟨hpl, _⟩ := install_ok_plugins hs hinst
      have hs2 : List.Pairwise priLe s2.plugins := by
        rw [hpl]; exact pairwise_insertSorted hs
      obtain ⟨ihp, ihf⟩ := ih s2 hs2
      have h1 : runInstalls s ((p, f) :: rest) = runInstalls s2 rest := by
        simp [runInstalls, hinst]
      have h2 : acceptedEntries s ((p, f) :: rest) = p :: acceptedEntries s2 rest := by
        simp [acceptedEntries, hinst]
      rw [h1, h2]
      refine ⟨ihp, fun pr => ?_⟩
      rw [ihf pr, hpl, filter_insertSorted pr hs, List.filter_cons]
      by_cases hp : p.priority == pr <;> simp [hp]

/-- Claim C8: after every sequence of install calls starting from the empty
registry, the plugin list is sorted ascending by priority, and for each
priority value the entries holding it appear in exactly the order the
successful install calls inserted them (stability). -/
theorem C8_plugin_list_sorted_and_stable (reqs : List (BasePlugin × Bool)) :
    List.Pairwise priLe (runInstalls initRegistry reqs).plugins
    ∧ ∀ pr : Int,
        ((runInstalls initRegistry reqs).plugins.filter (fun q => q.priority == pr))
          = ((acceptedEntries initRegistry reqs).filter (fun q => q.priority == pr)) := by
  obtain ⟨h1, h2⟩ := runInstalls_spec reqs initRegistry (by simp [initRegistry])
  refine ⟨h1, fun pr => ?_⟩
  have := h2 pr
  simpa [initRegistry] using this

lemma firstRequiredError_eq_none_iff (optionDefs : List CommandOption) (options : Opts) :
    firstRequiredError optionDefs options = none
      ↔ ∀ o ∈ optionDefs, o.required = true →
          isNullish (lookupOpt options (extractOptionName o.flag)) = false := by
  induction optionDefs with
  | nil => simp [firstRequiredError]
  | cons o rest ih =>
    rw [firstRequiredError]
    by_cases hc : (o.required && isNullish (lookupOpt options (extractOptionName o.flag))) = true
    · rw [if_pos hc]
      obtain ⟨hr, hn⟩ := Bool.and_eq_true_iff.mp hc
      constructor
      · intro h
        cases h
      · intro h
        have := h o (List.mem_cons_self o rest) hr
        rw [hn] at this
        cases this
    · rw [if_neg hc]
      rw [ih]
      constructor
      · intro h q hq hr
        rcases List.mem_cons.mp hq with rfl | hq2
        · cases hn : isNullish (lookupOpt options (extractOptionName q.flag)) with
          | false => rfl
          | true => exact absurd (by simp [hr, hn]) hc
        · exact h q hq2 hr
      · intro h q hq hr
        exact h q (List.mem_cons_of_mem o hq) hr

lemma firstRequiredError_some_spec (optionDefs : List CommandOption) (options : Opts)
    (hmiss : ∃ o, o ∈ optionDefs ∧ o.required = true
        ∧ isNullish (lookupOpt options (extractOptionName o.flag)) = true) :
    ∃ o, o ∈ optionDefs ∧ o.required = true
      ∧ isNullish (lookupOpt options (extractOptionName o.flag)) = true
      ∧ firstRequiredError optionDefs options
          = some ("选项 " ++ o.flag ++ " 是必填的") := by
  induction optionDefs with
  | nil =>
    obtain ⟨o, ho, _⟩ := hmiss
    cases ho
  | cons o rest ih =>
    rw [firstRequiredError]
    by_cases hc : (o.required && isNullish (lookupOpt options (extractOptionName o.flag))) = true
    · obtain ⟨hr, hn⟩ := Bool.and_eq_true_iff.mp hc
      exact ⟨o, List.mem_cons_self o rest, hr, hn, by rw [if_pos hc]⟩
    · obtain ⟨q, hq, hr, hn⟩ := hmiss
      have hq2 : q ∈ rest := by
        rcases List.mem_cons.mp hq with rfl | h2
        · exact absurd (by simp [hr, hn]) hc
        · exact h2
      obtain ⟨w, hw, hwr, hwn, hweq⟩ := ih ⟨q, hq2, hr, hn⟩
      exact ⟨w, List.mem_cons_of_mem o hw, hwr, hwn, by rw [if_neg hc]; exact hweq⟩

lemma execute_not_mem_beforeHookEvents (ps : List BasePlugin) :
    Event.execute ∉ beforeHookEvents ps := by
  intro h
  rw [beforeHookEvents, List.mem_filterMap] at h
  obtain ⟨p, _, hf⟩ := h
  by_cases hb : p.hasBefore = true <;> simp [hb] at hf

lemma requiredMsg_ne_empty (flag : String) : ("选项 " ++ flag ++ " 是必填的") ≠ "" := by
  intro h
  have hlen := congrArg String.length h
  rw [String.length_append, String.length_append] at hlen
  have h1 : ("选项 " : String).length = 3 := rfl
  have h2 : (" 是必填的" : String).length = 5 := rfl
  have h3 : ("" : String).length = 0 := rfl
  omega

lemma tryBody_truthy {cmd : BaseCommand} {installed : List BasePlugin}
    {options : Opts} {msg : String}
    (h : validateOptions cmd options = some msg) (hne : msg ≠ "") :
    tryBody cmd installed options
      = (beforeHookEvents (getPlugins cmd installed)
          ++ (if cmd.hasBefore then [Event.cmdBefore] else []),
         some { message := msg }) := by
  unfold tryBody
  rw [h]
  have hc : strTruthy (some msg) = true := by
    simpa [strTruthy] using hne
  rw [if_pos hc]
  rfl

lemma execute_mem_tryBody_of_falsy {cmd : BaseCommand}
    {installed : List BasePlugin} {options : Opts}
    (h : strTruthy (validateOptions cmd options) = false) :
    Event.execute ∈ (tryBody cmd installed options).1 := by
  unfold tryBody
  rw [if_neg (by simp [h])]
  cases hex : cmd.executeThrows <;> simp

lemma mem_runAction_of_mem_tryBody {cmd : BaseCommand}
    {installed : List BasePlugin} {options : Opts} {ev : Event}
    (h : ev ∈ (tryBody cmd installed options).1) :
    ev ∈ (runAction cmd installed options).1 := by
  rcases htb : tryBody cmd installed options with ⟨t, err⟩
  rw [htb] at h
  simp only at h
  rw [runAction, htb]
  cases err with
  | none => exact h
  | some e =>
    by_cases he : cmd.onErrorHandled e = true <;>
      · simp only [he, if_pos, if_neg, Bool.false_eq_true, not_false_eq_true]
        exact List.mem_append.mpr (Or.inl h)

lemma execute_not_mem_of_validation_fail {cmd : BaseCommand}
    {installed : List BasePlugin} {options : Opts} {msg : String}
    (h : validateOptions cmd options = some msg) (hne : msg ≠ "") :
    Event.execute ∉ (runAction cmd installed options).1 := by
  rw [runAction, tryBody_truthy h hne]
  by_cases he : cmd.onErrorHandled { message := msg } = true <;>
    · simp only [he, if_pos, if_neg, Bool.false_eq_true, not_false_eq_true,
        List.mem_append, List.mem_singleton]
      intro hmem
      rcases hmem with (hmem | hmem) | hmem
      · exact execute_not_mem_beforeHookEvents _ hmem
      · by_cases hb : cmd.hasBefore = true <;> simp [hb] at hmem
      · cases hmem

/-- The logger example plugin (examples/logger.plugin.ts): priority 50, both
hooks defined. -/
def loggerPlugin : BasePlugin :=
  { name := "logger", priority := 50, hasBefore := true, hasAfter := true }

/-- The timer example plugin (examples/timer.plugin.ts): priority 100, both
hooks defined. -/
def timerPlugin : BasePlugin :=
  { name := "timer", priority := 100, hasBefore := true, hasAfter := true }

/-- The registry plugin list after installing logger then timer. -/
def buildInstalled : List BasePlugin :=
  (runInstalls initRegistry [(loggerPlugin, false), (timerPlugin, false)]).plugins

/-- The build example command (examples/build.cmd.ts): declares plugins
logger and timer, defines both of its own hooks, and its execute body
returns normally; no options so every invocation validates. -/
def buildCmd : BaseCommand :=
  { args := { name := "build", plugins := some ["logger", "timer"], options := [] },
    hasBefore := true, hasAfter := true }

/-- A plugin named A with priority 200 and a plugin named B with priority 50,
for the declaration-order scenario. -/
def aPlugin : BasePlugin := { name := "A", priority := 200, hasBefore := true, hasAfter := true }

/-- See aPlugin. -/
def bPlugin : BasePlugin := { name := "B", priority := 50, hasBefore := true, hasAfter := true }

/-- The registry plugin list after installing A (priority 200) then B
(priority 50): sorted to B before A. -/
def abInstalled : List BasePlugin :=
  (runInstalls initRegistry [(aPlugin, false), (bPlugin, false)]).plugins

/-- A command declaring its plugin names in the order A, B. -/
def abCmd : BaseCommand :=
  { args := { name := "ab", plugins := some ["A", "B"], options := [] } }

/-- The same command declaring its plugin names in the order B, A. -/
def baCmd : BaseCommand :=
  { args := { name := "ab", plugins := some ["B", "A"], options := [] } }

/-- A plugin entry named p with the default priority, for the duplicate
install scenario. -/
def pEntry : BasePlugin := { name := "p", priority := 100 }

/-- Claim C1 (counterexample): in the scenario of the claim — command build
declares plugins logger and timer, logger installed with priority 50 and
timer with priority 100, invocation with valid options — the hook trace is
not the claimed sequence, because the plugin afterExecute hooks run in the
same ascending-priority order as the beforeExecute hooks, not reversed. -/
theorem C1_counterexample :
    ¬ ((runAction buildCmd buildInstalled []).1
        = [Event.pluginBefore "logger", Event.pluginBefore "timer", Event.cmdBefore,
           Event.execute, Event.cmdAfter,
           Event.pluginAfter "timer", Event.pluginAfter "logger"]) := by
  decide

/-- Claim C1 (amended): the scenario produces the hook call sequence
logger.beforeExecute, timer.beforeExecute, the command's beforeExecute, the
command's execute, the command's afterExecute, logger.afterExecute,
timer.afterExecute — the plugin after-hooks keep ascending priority order —
and the invocation returns normally. -/
theorem C1_build_scenario_trace :
    (runAction buildCmd buildInstalled []).1
      = [Event.pluginBefore "logger", Event.pluginBefore "timer", Event.cmdBefore,
         Event.execute, Event.cmdAfter,
         Event.pluginAfter "logger", Event.pluginAfter "timer"]
    ∧ (runAction buildCmd buildInstalled []).2 = Outcome.normal := by
  decide

/-- Claim C2: duplicate registration with force=false throws the exact
conflict message for plugins and for commands; with force=true use replaces
the command entry, leaving one entry under the name, but install appends a
second plugin entry instead of replacing the first, so two entries named p
remain — the code contradicts the replacement contract. -/
theorem C2_duplicate_registration_behaviour :
    install { plugins := [pEntry], commands := [] } pEntry false
        = Except.error "Plugin \x27p\x27 already exists."
    ∧ use { plugins := [], commands := [("greet", 1)] } "greet" 2 false
        = Except.error "Command \x27greet\x27 already exists."
    ∧ use { plugins := [], commands := [("greet", 1)] } "greet" 2 true
        = Except.ok { plugins := [], commands := [("greet", 2)] }
    ∧ install { plugins := [pEntry], commands := [] } pEntry true
        = Except.ok { plugins := [pEntry, pEntry], commands := [] }
    ∧ ((match install { plugins := [pEntry], commands := [] } pEntry true with
        | Except.ok s2 => s2.plugins.filter (fun q : BasePlugin => q.name == "p")
        | Except.error _ => ([] : List BasePlugin)).length = 2) := by
  refine ⟨rfl, rfl, rfl, rfl, rfl⟩

/-- Claim C3: for every invocation that validates and whose execute body
returns, the trace is plugin before-hooks (in the installed list's order,
sorted ascending by priority when the installed list is), then the command's
own before-hook, then execute, then the command's own after-hook, then the
plugin after-hooks traversed in the same ascending order; the action returns
normally. -/
theorem C3_hook_order (cmd : BaseCommand) (installed : List BasePlugin) (options : Opts)
    (hsorted : List.Pairwise priLe installed)
    (hvalid : validateOptions cmd options = none)
    (hexec : cmd.executeThrows = none) :
    (runAction cmd installed options).1
      = beforeHookEvents (getPlugins cmd installed)
        ++ (if cmd.hasBefore then [Event.cmdBefore] else [])
        ++ [Event.execute]
        ++ (if cmd.hasAfter then [Event.cmdAfter] else [])
        ++ afterHookEvents (getPlugins cmd installed)
    ∧ List.Pairwise priLe (getPlugins cmd installed)
    ∧ (runAction cmd installed options).2 = Outcome.normal := by
  refine ⟨?_, ?_, ?_⟩
  · simp [runAction, tryBody, strTruthy, hvalid, hexec, List.append_assoc]
  · exact List.Pairwise.sublist (by simp only [getPlugins]; exact List.filter_sublist installed) hsorted
  · simp [runAction, tryBody, strTruthy, hvalid, hexec]

/-- Witness for C3 at the build scenario. -/
theorem C3_hook_order_witness :
    (List.Pairwise priLe buildInstalled
      ∧ validateOptions buildCmd [] = none
      ∧ buildCmd.executeThrows = none)
    ∧ (runAction buildCmd buildInstalled []).2 = Outcome.normal :=
  ⟨⟨by decide, by decide, rfl⟩,
    (C3_hook_order buildCmd buildInstalled [] (by decide) (by decide) rfl).2.2⟩

/-- Claim C4: a command's resolved plugin subset is the installed list
filtered by declared-name membership, keeps the installed list's sorted
order, and depends on the declared name list only through membership, never
through declaration order; in the concrete scenario, a command declaring
[A, B] against installed priorities A=200, B=50 resolves to the order B, A. -/
theorem C4_plugin_resolution (cmd : BaseCommand) (installed : List BasePlugin) :
    getPlugins cmd installed
        = installed.filter (fun p => (cmd.args.plugins.getD []).contains p.name)
    ∧ (List.Pairwise priLe installed → List.Pairwise priLe (getPlugins cmd installed))
    ∧ (∀ cmd2 : BaseCommand,
        (∀ x : String, (cmd2.args.plugins.getD []).contains x
            = (cmd.args.plugins.getD []).contains x) →
        getPlugins cmd2 installed = getPlugins cmd installed)
    ∧ getPlugins abCmd abInstalled = [bPlugin, aPlugin] := by
  refine ⟨rfl, ?_, ?_, by decide⟩
  · intro h
    exact List.Pairwise.sublist (by simp only [getPlugins]; exact List.filter_sublist installed) h
  · intro cmd2 hsame
    unfold getPlugins
    exact List.filter_congr (fun p _ => by rw [hsame p.name])

/-- Witness for C4: the A=200, B=50 scenario; declaring [B, A] resolves to
the very same list as declaring [A, B], and the resolved list keeps the
ascending priority order. -/
theorem C4_plugin_resolution_witness :
    getPlugins baCmd abInstalled = getPlugins abCmd abInstalled
    ∧ List.Pairwise priLe (getPlugins abCmd abInstalled)
    ∧ getPlugins abCmd abInstalled = [bPlugin, aPlugin] :=
  ⟨(C4_plugin_resolution abCmd abInstalled).2.2.1 baCmd (by
      intro x
      show (["B", "A"] : List String).contains x = (["A", "B"] : List String).contains x
      simp only [List.contains_cons, List.contains_nil, Bool.or_false]
      exact Bool.or_comm _ _),
    (C4_plugin_resolution abCmd abInstalled).2.1 (by decide),
    (C4_plugin_resolution abCmd abInstalled).2.2.2⟩

/-- The required name option of the greet-style scenario. -/
def reqOption : CommandOption := { flag := "--name <value>", required := true }

/-- A command with one required option and no custom validator. -/
def reqCmd : BaseCommand := { args := { name := "greet", options := [reqOption] } }

/-- Claim C5: when a required option is missing from the parsed options, a
validation failure arises (validateOptions returns a message and the try
block throws exactly that message as an Error), and the execute body never
runs: Event.execute is not in the trace. -/
theorem C5_missing_required_blocks_execute (cmd : BaseCommand)
    (installed : List BasePlugin) (options : Opts) (o : CommandOption)
    (hmem : o ∈ cmd.args.options) (hreq : o.required = true)
    (hmiss : isNullish (lookupOpt options (extractOptionName o.flag)) = true) :
    (∃ msg, validateOptions cmd options = some msg
      ∧ (tryBody cmd installed options).2 = some { message := msg })
    ∧ Event.execute ∉ (runAction cmd installed options).1 := by
  obtain ⟨w, _, _, _, hw⟩ :=
    firstRequiredError_some_spec cmd.args.options options ⟨o, hmem, hreq, hmiss⟩
  have hv : validateOptions cmd options = some ("选项 " ++ w.flag ++ " 是必填的") := by
    rw [validateOptions, hw]
  refine ⟨⟨_, hv, ?_⟩,
    execute_not_mem_of_validation_fail hv (requiredMsg_ne_empty w.flag)⟩
  rw [tryBody_truthy hv (requiredMsg_ne_empty w.flag)]

/-- Witness for C5: the greet-style command invoked with empty parsed
options. -/
theorem C5_missing_required_blocks_execute_witness :
    (reqOption ∈ reqCmd.args.options ∧ reqOption.required = true
      ∧ isNullish (lookupOpt [] (extractOptionName reqOption.flag)) = true)
    ∧ Event.execute ∉ (runAction reqCmd [] []).1 :=
  ⟨⟨by decide, rfl, by decide⟩,
    (C5_missing_required_blocks_execute reqCmd [] [] reqOption (by decide) rfl
      (by decide)).2⟩

/-- A command with no required options whose validator always rejects with
the empty string — a non-null return the truthiness test does not catch. -/
def emptyMsgCmd : BaseCommand :=
  { args := { name := "empty", options := [], validate := some (fun _ => some "") } }

/-- Claim C6 (counterexample): a validator returning the empty string — a
non-null string — is not reported as the validation error: the truthiness
test of the orchestrator treats it as no error, so execute runs and the
action returns normally, refuting the claim that any non-null validator
string is reported and keeps execute from being called. -/
theorem C6_counterexample :
    validateOptions emptyMsgCmd [] = some ""
    ∧ Event.execute ∈ (runAction emptyMsgCmd [] []).1
    ∧ (runAction emptyMsgCmd [] []).2 = Outcome.normal := by
  decide

/-- Claim C6 (amended): validation runs required-check first (when a
required option is missing, the result is the required message naming the
missing flag of one such option), the custom validate function is consulted
exactly when all required options are present (the result is then its exact
return value), any non-empty validation message keeps execute out of the
trace, and a validator result of the empty string is treated as success by
the orchestrator's truthiness test: execute still runs. -/
theorem C6_validation_order (cmd : BaseCommand) (installed : List BasePlugin)
    (options : Opts) :
    ((∃ o, o ∈ cmd.args.options ∧ o.required = true
        ∧ isNullish (lookupOpt options (extractOptionName o.flag)) = true) →
      ∃ o, o ∈ cmd.args.options ∧ o.required = true
        ∧ isNullish (lookupOpt options (extractOptionName o.flag)) = true
        ∧ validateOptions cmd options = some ("选项 " ++ o.flag ++ " 是必填的"))
    ∧ ((∀ o ∈ cmd.args.options, o.required = true →
          isNullish (lookupOpt options (extractOptionName o.flag)) = false) →
        validateOptions cmd options
          = match cmd.args.validate with
            | some f => f options
            | none => none)
    ∧ (∀ msg, validateOptions cmd options = some msg → msg ≠ "" →
        Event.execute ∉ (runAction cmd installed options).1)
    ∧ (validateOptions cmd options = some "" →
        Event.execute ∈ (runAction cmd installed options).1) := by
  refine ⟨?_, ?_, ?_, ?_⟩
  · intro hmiss
    obtain ⟨w, hw1, hw2, hw3, hw4⟩ :=
      firstRequiredError_some_spec cmd.args.options options hmiss
    exact ⟨w, hw1, hw2, hw3, by rw [validateOptions, hw4]⟩
  · intro hall
    rw [validateOptions, (firstRequiredError_eq_none_iff cmd.args.options options).mpr hall]
  · intro msg hmsg hne
    exact execute_not_mem_of_validation_fail hmsg hne
  · intro hempty
    have hf : strTruthy (validateOptions cmd options) = false := by
      rw [hempty]
      simp [strTruthy]
    exact mem_runAction_of_mem_tryBody (execute_mem_tryBody_of_falsy hf)

/-- The mode validator of examples/build.cmd.ts: a truthy mode that is
neither development nor production is rejected with the exact Chinese
message. -/
def modeValidate : Opts → Option String := fun options =>
  let m := lookupOpt options "mode"
  if jsTruthy m && !(m == JSValue.vStr "development" || m == JSValue.vStr "production") then
    some "构建模式必须是 development 或 production"
  else
    none

/-- A command with an optional mode flag and the mode validator. -/
def stagingCmd : BaseCommand :=
  { args := { name := "deploy",
              options := [{ flag := "--mode <mode>" }],
              validate := some modeValidate } }

/-- Parsed options carrying mode = staging. -/
def stagingOpts : Opts := [("mode", JSValue.vStr "staging")]

/-- Witness for C6: the validator rejects mode = staging with its own exact
message and execute is not called. -/
theorem C6_validation_order_witness :
    (∀ o ∈ stagingCmd.args.options, o.required = true →
        isNullish (lookupOpt stagingOpts (extractOptionName o.flag)) = false)
    ∧ validateOptions stagingCmd stagingOpts
        = some "构建模式必须是 development 或 production"
    ∧ Event.execute ∉ (runAction stagingCmd [] stagingOpts).1 := by
  have hall : ∀ o ∈ stagingCmd.args.options, o.required = true →
      isNullish (lookupOpt stagingOpts (extractOptionName o.flag)) = false := by
    decide
  have h2 : validateOptions stagingCmd stagingOpts
      = some "构建模式必须是 development 或 production" :=
    ((C6_validation_order stagingCmd [] stagingOpts).2.1 hall).trans (by decide)
  exact ⟨hall, h2, (C6_validation_order stagingCmd [] stagingOpts).2.2.1 _ h2 (by decide)⟩

/-- Claim C7: when the try block throws (from validation or from the execute
body), onError is invoked with that very error as the last trace event; a
truthy return absorbs the error and the action returns normally, a falsy
return re-raises the identical error value. -/
theorem C7_onError_contract (cmd : BaseCommand) (installed : List BasePlugin)
    (options : Opts) (e : JsError)
    (herr : (tryBody cmd installed options).2 = some e) :
    (runAction cmd installed options).1
        = (tryBody cmd installed options).1 ++ [Event.onErrorCall e]
    ∧ (cmd.onErrorHandled e = true →
        (runAction cmd installed options).2 = Outcome.normal)
    ∧ (cmd.onErrorHandled e = false →
        (runAction cmd installed options).2 = Outcome.raised e) := by
  rcases htb : tryBody cmd installed options with ⟨t, err⟩
  rw [htb] at herr
  simp only at herr
  subst herr
  by_cases h : cmd.onErrorHandled e = true
  · simp [runAction, htb, h]
  · have hb : cmd.onErrorHandled e = false := by
      simpa using h
    simp [runAction, htb, hb]

/-- A command whose execute body throws boom and whose onError returns
false. -/
def throwingCmd : BaseCommand :=
  { args := { name := "boom", options := [] },
    executeThrows := some { message := "boom" } }

/-- A command whose execute body throws fail and whose onError returns
true, like examples/build.cmd.ts. -/
def handledCmd : BaseCommand :=
  { args := { name := "handled", options := [] },
    executeThrows := some { message := "fail" },
    onErrorHandled := fun _ => true }

/-- Witness for C7: an execute body that throws; with onError returning
false the same error is re-raised after the onError call, with onError
returning true the action returns normally. -/
theorem C7_onError_contract_witness :
    (tryBody throwingCmd [] []).2 = some { message := "boom" }
    ∧ (runAction throwingCmd [] []).1
        = [Event.execute, Event.onErrorCall { message := "boom" }]
    ∧ (runAction throwingCmd [] []).2 = Outcome.raised { message := "boom" }
    ∧ (runAction handledCmd [] []).2 = Outcome.normal :=
  ⟨by decide,
    ((C7_onError_contract throwingCmd [] [] { message := "boom" } (by decide)).1).trans
      (by decide),
    (C7_onError_contract throwingCmd [] [] { message := "boom" } (by decide)).2.2 rfl,
    (C7_onError_contract handledCmd [] [] { message := "fail" } (by decide)).2.1 rfl⟩

/-- A log line the loaders emit: console.warn or console.error with the
message text and the stringified error. -/
inductive LogEvent where
  | warn (message errText : String)
  | error (message errText : String)
deriving Repr, DecidableEq

/-- What a plugin file's dynamic import resolves to, once defaulted: whether
the export passes the isPlugin check, the plugin class (whose static name
may be empty, meaning unset), and its static force flag. -/
structure PluginModule where
  valid : Bool
  cls : BasePlugin
  force : Bool
deriving Repr, DecidableEq

/-- What a command file's dynamic import resolves to: whether the export
passes the isCommand check, the class's static name (may be empty), a token
identifying the class, and its static force flag. -/
structure CommandModule where
  valid : Bool
  name : String
  cls : Nat
  force : Bool
deriving Repr, DecidableEq

/-- What one loader call leaves behind: the registry afterwards, the console
lines it printed, and the error it let escape, if any. -/
structure LoadOutcome where
  state : RegistryState
  logs : List LogEvent
  thrown : Option JsError
deriving Repr, DecidableEq

/-- path.basename without suffix handling: the part after the last slash. -/
def basename (fn : String) : String := (fn.splitOn "/").getLastD fn

/-- path.extname of a basename: the part from the last dot on, empty for a
dotless name and for a leading-dot-only name. -/
def extname (b : String) : String :=
  match b.splitOn "." with
  | [] => ""
  | [_] => ""
  | ["", _] => ""
  | parts => "." ++ parts.getLastD ""

/-- path.basename fn (path.extname fn): the basename with its extension
dropped. -/
def basenameNoExt (fn : String) : String :=
  let b := basename fn
  let e := extname b
  if e != "" && b.endsWith e then b.dropRight e.length else b

/-- JavaScript String.prototype.replace with a plain-string pattern: remove
the first occurrence of the pattern. -/
def replaceFirst (s pat : String) : String :=
  match s.splitOn pat with
  | [] => s
  | [x] => x
  | x :: rest => x ++ String.intercalate pat rest

/-- getName from src/cli.ts: the basename with its extension removed, then
the first .cmd or .plugin marker removed. -/
def getName (fn key : String) : String :=
  replaceFirst (basenameNoExt fn) ("." ++ key)

/-- loadPlugin from src/cli.ts: on an import failure, warn and continue; on
success, skip a non-plugin export, default an unset name from the filename,
and install — an install conflict is caught by the same try block and only
warned about. Nothing a plugin file does ever escapes the loader. -/
def loadPlugin (s : RegistryState) (fn : String)
    (imported : Except JsError PluginModule) : LoadOutcome :=
  match imported with
  | Except.error e =>
    { state := s,
      logs := [LogEvent.warn ("加载插件文件 \x22" ++ fn ++ "\x22 时出错:") e.message],
      thrown := none }
  | Except.ok m =>
    if !m.valid then { state := s, logs := [], thrown := none }
    else
      let cls := if m.cls.name == "" then { m.cls with name := getName fn "plugin" } else m.cls
      match install s cls m.force with
      | Except.ok s2 => { state := s2, logs := [], thrown := none }
      | Except.error msg =>
        { state := s,
          logs := [LogEvent.warn ("加载插件文件 \x22" ++ fn ++ "\x22 时出错:") msg],
          thrown := none }

/-- loadCommand from src/cli.ts: on an import failure, log with
console.error and re-throw the very same error; on success, skip a
non-command export, default an unset name from the filename, and register —
a use conflict is logged and re-thrown the same way. -/
def loadCommand (s : RegistryState) (fn : String)
    (imported : Except JsError CommandModule) : LoadOutcome :=
  match imported with
  | Except.error e =>
    { state := s,
      logs := [LogEvent.error ("加载命令文件 \x22" ++ fn ++ "\x22 时出错:") e.message],
      thrown := some e }
  | Except.ok m =>
    if !m.valid then { state := s, logs := [], thrown := none }
    else
      let name := if m.name == "" then getName fn "cmd" else m.name
      match use s name m.cls m.force with
      | Except.ok s2 => { state := s2, logs := [], thrown := none }
      | Except.error msg =>
        { state := s,
          logs := [LogEvent.error ("加载命令文件 \x22" ++ fn ++ "\x22 时出错:") msg],
          thrown := some { message := msg } }

/-- Claim C9: an import failure in a plugin file is warned about and
swallowed — the registry is untouched and nothing is thrown, so discovery
continues — while the same failure in a command file is logged and
re-thrown, aborting discovery; the asymmetry is exactly as stated. -/
theorem C9_import_failure_asymmetry (s : RegistryState) (fn : String) (e : JsError) :
    loadPlugin s fn (Except.error e)
      = { state := s,
          logs := [LogEvent.warn ("加载插件文件 \x22" ++ fn ++ "\x22 时出错:") e.message],
          thrown := none }
    ∧ loadCommand s fn (Except.error e)
      = { state := s,
          logs := [LogEvent.error ("加载命令文件 \x22" ++ fn ++ "\x22 时出错:") e.message],
          thrown := some e } :=
  ⟨rfl, rfl⟩

/-- A command with one required boolean flag, for the false-is-present
scenario. -/
def boolFlagCmd : BaseCommand :=
  { args := { name := "flags", options := [{ flag := "--verbose", required := true }] } }

/-- Claim C10: the required-option check reports an option missing exactly
when its looked-up value is null or undefined (the loose == null test);
false, zero and the empty string count as present, so a required boolean
flag parsed as false validates. -/
theorem C10_nullish_missing_semantics (cmd : BaseCommand) (options : Opts) :
    (firstRequiredError cmd.args.options options = none
      ↔ ∀ o ∈ cmd.args.options, o.required = true →
          isNullish (lookupOpt options (extractOptionName o.flag)) = false)
    ∧ (isNullish JSValue.vNull = true ∧ isNullish JSValue.vUndefined = true
      ∧ isNullish (JSValue.vBool false) = false
      ∧ isNullish (JSValue.vNum 0) = false
      ∧ isNullish (JSValue.vStr "") = false)
    ∧ validateOptions boolFlagCmd [("verbose", JSValue.vBool false)] = none :=
  ⟨firstRequiredError_eq_none_iff cmd.args.options options,
    ⟨rfl, rfl, rfl, rfl, rfl⟩, by decide⟩

end JShow
